import Mathlib

/-!
Shallow embedding of the datumaro COCO/YOLO/TFRecord conversion components:

* `datumaro/components/extractors/ms_coco.py`  — `RleMask`, `CocoExtractor`
  (`_load_categories`, `_load_label_categories`, `_parse_label`,
  `_parse_annotation`)
* `datumaro/components/importers/ms_coco.py`   — `CocoImporter.find_subsets`
* `datumaro/components/converters/yolo.py`     — `_make_yolo_bbox`,
  `YoloConverter.__call__`
* `datumaro/components/converters/tfrecord.py` — `_make_tf_example`,
  `DetectionApiConverter.__call__`

Numbers are embedded as rationals (`ℚ`); Python dicts as association lists
with last-binding-wins lookup (Python assignment overwrites); Python
exceptions as `Except String`.  The RLE math library (`pycocotools.mask`)
is an external trusted primitive and is passed in as function parameters.
-/

/-! ## RLE masks (`RleMask`, ms_coco.py lines 23-43) -/

/-- A COCO run-length encoding: mask size `(height, width)` and the run
counts (alternating runs of 0s and 1s, starting with 0s, column-major). -/
structure Rle where
  size : Nat × Nat
  counts : List Nat
deriving DecidableEq, Repr

/-- Expansion of an RLE counts list into a flat boolean pixel sequence:
each count `c` contributes `c` copies of the current bit, bits alternate
starting from `false`.  This is the semantics of the trusted
`mask_utils.decode` primitive on the counts data. -/
def rleExpand : List Nat → Bool → List Bool
  | [], _ => []
  | c :: rest, b => List.replicate c b ++ rleExpand rest (!b)

/-- Decoding `mask_utils.decode`: the flat (column-major) pixel array of an RLE. -/
def rleDecode (r : Rle) : List Bool :=
  rleExpand r.counts false

/-- State of `RleMask.__init__`: the mask object stores the RLE it was built from
(`self._rle = rle`) along with the usual annotation fields. -/
structure RleMask where
  rle : Rle
  label : Option Nat
  id : Option Nat
  group : Option Nat
deriving DecidableEq, Repr

/-- Equality `RleMask.__eq__` for two `RleMask` instances: compares the stored RLE
representations (`self._rle == other._rle`) and nothing else. -/
def rleMaskEq (m1 m2 : RleMask) : Bool :=
  m1.rle == m2.rle

/-! ## Task vocabulary (`CocoTask`, formats/ms_coco.py — not under src/;
the member list and its order are fixed by the importer's extractor table
and the spec's task vocabulary) -/

/-- The COCO task vocabulary
`{instances, person_keypoints, captions, labels, image_info}`. -/
inductive CocoTask where
  | instances
  | person_keypoints
  | captions
  | labels
  | image_info
deriving DecidableEq, Repr

/-- Member name `e.name` for each `CocoTask` member, in declaration order. -/
def CocoTask.name : CocoTask → String
  | .instances => "instances"
  | .person_keypoints => "person_keypoints"
  | .captions => "captions"
  | .labels => "labels"
  | .image_info => "image_info"

/-- All `CocoTask` members in declaration order (Python `for e in CocoTask`). -/
def cocoTaskList : List CocoTask :=
  [.instances, .person_keypoints, .captions, .labels, .image_info]

/-- Python `CocoTask[name]` lookup by member name. -/
def cocoTaskOfName (s : String) : Option CocoTask :=
  cocoTaskList.find? (fun t => t.name == s)

/-! ## Category loading (`CocoExtractor._load_categories`, lines 98-123) -/

/-- The `CocoExtractor._load_categories` label-loader selection, over the merged
task→loader dictionary: start from `loaders.get(labels)`; if that is `None`
and an `instances` loader exists take it; if still `None` and a
`person_keypoints` loader exists take that. -/
def chooseLabelLoader {L : Type} (loaders : CocoTask → Option L) : Option L :=
  let label_loader := loaders CocoTask.labels
  let label_loader :=
    if label_loader.isNone ∧ (loaders CocoTask.instances).isSome then
      loaders CocoTask.instances
    else label_loader
  let label_loader :=
    if label_loader.isNone ∧ (loaders CocoTask.person_keypoints).isSome then
      loaders CocoTask.person_keypoints
    else label_loader
  label_loader

/-- Last-binding-wins association-list lookup: the lookup behaviour of a
Python dict built by repeated assignment. -/
def dictGet (ps : List (Nat × Nat)) (k : Nat) : Option Nat :=
  ps.foldl (fun acc p => if p.1 = k then some p.2 else acc) none

/-- The `CocoExtractor._load_label_categories` body (lines 126-136): from the
loader's category records (pairs of COCO category `id` and `name`, in load
order) build the ordered name table and the id→index map
(`label_map[cat.id] = idx`). -/
def loadLabelCategories (cats : List (Nat × String)) :
    List String × List (Nat × Nat) :=
  (cats.map Prod.snd, cats.enum.map (fun p => (p.2.1, p.1)))

/-! ## Label resolution (`CocoExtractor._parse_label`, lines 199-203) -/

/-- The `CocoExtractor._parse_label` body: read the category id field; ids `0` and
absent (`None`) give no label; otherwise `self._label_map[cat_id]`, whose
failure (Python `KeyError`, the spec's `CategoryMismatchError`) is a fatal
error. -/
def parse_label (label_map : List (Nat × Nat)) (cat_id : Option Nat) :
    Except String (Option Nat) :=
  match cat_id with
  | none => .ok none
  | some 0 => .ok none
  | some c =>
    match dictGet label_map c with
    | some idx => .ok (some idx)
    | none => .error "CategoryMismatchError"

/-! ## AnnObj model (datumaro/components/extractor.py object kinds, as
constructed by `CocoExtractor._parse_annotation`) -/

/-- Attribute values stored in an annotation's attribute dict
(`score`, `is_crowd`). -/
inductive AttrVal where
  | num (q : ℚ)
  | bool (b : Bool)
deriving DecidableEq, Repr

/-- An annotation's open string-keyed attribute map. -/
abbrev Attributes := List (String × AttrVal)

/-- The `segmentation` field of a COCO instances record: a list of polygon
parts (Python list), an uncompressed RLE (dict whose `counts` is a list),
or a compressed RLE (anything else). -/
inductive Segmentation where
  | polygons (parts : List (List ℚ))
  | uncompressedRle (size : Nat × Nat) (counts : List Nat)
  | compressedRle (rle : Rle)
deriving DecidableEq, Repr

/-- The annotation variants emitted by `_parse_annotation`: `LabelObject`,
`BboxObject`, `PolygonObject`, `RleMask`, `PointsObject`, `CaptionObject`,
with their construction arguments. -/
inductive AnnObj where
  | label (label : Option Nat) (id : Option Nat) (attributes : Attributes)
  | bbox (x y w h : ℚ) (label : Option Nat) (id : Option Nat)
      (attributes : Attributes) (group : Option Nat)
  | polygon (points : List ℚ) (label : Option Nat) (id : Option Nat)
      (group : Option Nat) (attributes : Attributes)
  | mask (rle : Rle) (label : Option Nat) (id : Option Nat)
      (group : Option Nat) (attributes : Attributes)
  | points (pts : List ℚ) (visibility : List ℚ) (label : Option Nat)
      (id : Option Nat) (attributes : Attributes) (group : Option Nat)
  | caption (text : String) (id : Option Nat) (attributes : Attributes)
deriving DecidableEq, Repr

/-- The `group` field of an annotation (`None` for kinds constructed
without one). -/
def AnnObj.group : AnnObj → Option Nat
  | .bbox _ _ _ _ _ _ _ g => g
  | .polygon _ _ _ g _ => g
  | .mask _ _ _ g _ => g
  | .points _ _ _ _ _ g => g
  | _ => none

/-- The polygon points of a `PolygonObject`, if this annotation is one. -/
def AnnObj.polygonPts : AnnObj → Option (List ℚ)
  | .polygon pts _ _ _ _ => some pts
  | _ => none

/-- The stored RLE of an `RleMask`, if this annotation is one. -/
def AnnObj.maskRle : AnnObj → Option Rle
  | .mask rle _ _ _ _ => some rle
  | _ => none

/-- The `(x, y, w, h)` of a `BboxObject`, if this annotation is one. -/
def AnnObj.bboxXYWH : AnnObj → Option (ℚ × ℚ × ℚ × ℚ)
  | .bbox x y w h _ _ _ _ => some (x, y, w, h)
  | _ => none

/-- The `(points, visibility)` of a `PointsObject`, if this annotation is
one. -/
def AnnObj.pointsData : AnnObj → Option (List ℚ × List ℚ)
  | .points pts vis _ _ _ _ => some (pts, vis)
  | _ => none

/-! ## AnnObj records, as read from the loaded COCO JSON -/

/-- A COCO `instances` annotation record, with the fields read by
`_parse_annotation`: `id` and `score` optional (`.get`), `bbox`,
`iscrowd` and (when present) `segmentation` required lookups, and
`category_id` optional via `_parse_label`. -/
structure InstanceAnn where
  id : Option Nat
  score : Option ℚ
  bbox : ℚ × ℚ × ℚ × ℚ
  category_id : Option Nat
  iscrowd : Nat
  segmentation : Option Segmentation
deriving Repr

/-- A COCO `person_keypoints` annotation record, with the fields read by
`_parse_annotation`: the flat `keypoints` array and an optional `bbox`. -/
structure KeypointsAnn where
  id : Option Nat
  score : Option ℚ
  keypoints : List ℚ
  bbox : Option (ℚ × ℚ × ℚ × ℚ)
  category_id : Option Nat
deriving Repr

/-- The attribute dict built at the top of `_parse_annotation`:
a score entry when one is present, else empty. -/
def baseAttributes (score : Option ℚ) : Attributes :=
  match score with
  | some s => [("score", AttrVal.num s)]
  | none => []

/-! ## Instances decoding (`_parse_annotation`, `CocoTask.instances`
branch, lines 212-255).  The `pycocotools.mask` primitives
(`frPyObjects` on polygon lists, `frPyObjects` on an uncompressed RLE,
`merge`) are external trusted primitives, passed in as parameters. -/

/-- The `CocoTask.instances` branch of `_parse_annotation`: emits the
polygon parts (when segmentation is a polygon list), the merged or
converted `RleMask` (when merging is on, or segmentation is an RLE), and
always a trailing `BboxObject` from the record's box.  `image_info` is the
`(height, width)` of the record's image entry, needed only to merge
polygon parts; errors are label-table misses (`_parse_label`) and the
Python `TypeError` from reading sizes off an absent `image_info`. -/
def parse_instances_ann
    (frPyPolygons : List (List ℚ) → Nat → Nat → List Rle)
    (mergeRle : List Rle → Rle)
    (frPyUncompressed : Nat × Nat → List Nat → Rle)
    (label_map : List (Nat × Nat)) (merge_instance_polygons : Bool)
    (image_info : Option (Nat × Nat)) (ann : InstanceAnn)
    (parsed_annotations : List AnnObj) :
    Except String (List AnnObj) :=
  let (x, y, w, h) := ann.bbox
  match parse_label label_map ann.category_id with
  | .error e => .error e
  | .ok label_id =>
    let attributes := baseAttributes ann.score ++
      [("is_crowd", AttrVal.bool (ann.iscrowd != 0))]
    match ann.segmentation with
    | none =>
      .ok (parsed_annotations ++
        [.bbox x y w h label_id ann.id attributes none])
    | some seg =>
      let group := ann.id
      match seg with
      | .polygons parts =>
        let withPolys := parsed_annotations ++
          parts.map (fun polygon_points =>
            .polygon polygon_points label_id ann.id group attributes)
        if merge_instance_polygons then
          match image_info with
          | some hw =>
            let rle := mergeRle (frPyPolygons parts hw.1 hw.2)
            .ok (withPolys ++
              [.mask rle label_id ann.id group attributes,
               .bbox x y w h label_id ann.id attributes group])
          | none => .error "TypeError"
        else
          .ok (withPolys ++
            [.bbox x y w h label_id ann.id attributes group])
      | .uncompressedRle size counts =>
        let rle := frPyUncompressed size counts
        .ok (parsed_annotations ++
          [.mask rle label_id ann.id group attributes,
           .bbox x y w h label_id ann.id attributes group])
      | .compressedRle rle =>
        .ok (parsed_annotations ++
          [.mask rle label_id ann.id group attributes,
           .bbox x y w h label_id ann.id attributes group])

/-! ## Person-keypoints decoding (`_parse_annotation`,
`CocoTask.person_keypoints` branch, lines 262-278) -/

/-- Python `[p for i, p in enumerate(keypoints) if i % 3 != 2]`. -/
def dropEveryThird (l : List ℚ) : List ℚ :=
  ((l.enum.filter (fun p => p.1 % 3 != 2)).map Prod.snd)

/-- Python `keypoints[2::3]`. -/
def everyThird : List ℚ → List ℚ
  | _ :: _ :: v :: rest => v :: everyThird rest
  | _ => []

/-- The `CocoTask.person_keypoints` branch of `_parse_annotation`: splits
the flat keypoints array into geometry and visibility, emits one
`PointsObject`, and — when the record carries a box — a companion
`BboxObject` sharing the same group (the record's id). -/
def parse_person_keypoints_ann (label_map : List (Nat × Nat))
    (ann : KeypointsAnn) (parsed_annotations : List AnnObj) :
    Except String (List AnnObj) :=
  let attributes := baseAttributes ann.score
  let points := dropEveryThird ann.keypoints
  let visibility := everyThird ann.keypoints
  match parse_label label_map ann.category_id with
  | .error e => .error e
  | .ok label_id =>
    let group := match ann.bbox with
      | some _ => ann.id
      | none => none
    let base := parsed_annotations ++
      [.points points visibility label_id ann.id attributes group]
    match ann.bbox with
    | some (x, y, w, h) =>
      .ok (base ++ [.bbox x y w h label_id none [] group])
    | none => .ok base

/-! ## Theorems -/

/-- Polygon annotations built from a parts list recover exactly the parts. -/
theorem filterMap_polygonPts_map (parts : List (List ℚ)) (lbl i g : Option Nat)
    (attrs : Attributes) :
    List.filterMap
      (AnnObj.polygonPts ∘ fun pp => AnnObj.polygon pp lbl i g attrs)
      parts = parts := by
  induction parts with
  | nil => rfl
  | cons p ps ih => simp [AnnObj.polygonPts, Function.comp, ih]

/-- Polygon annotations contribute no mask RLEs. -/
theorem filterMap_maskRle_map_polygons (parts : List (List ℚ))
    (lbl i g : Option Nat) (attrs : Attributes) :
    List.filterMap
      (AnnObj.maskRle ∘ fun pp => AnnObj.polygon pp lbl i g attrs)
      parts = [] := by
  induction parts with
  | nil => rfl
  | cons p ps ih => simp [AnnObj.maskRle, Function.comp, ih]

/-- Polygon annotations contribute no bbox data. -/
theorem filterMap_bboxXYWH_map_polygons (parts : List (List ℚ))
    (lbl i g : Option Nat) (attrs : Attributes) :
    List.filterMap
      (AnnObj.bboxXYWH ∘ fun pp => AnnObj.polygon pp lbl i g attrs)
      parts = [] := by
  induction parts with
  | nil => rfl
  | cons p ps ih => simp [AnnObj.bboxXYWH, Function.comp, ih]

/-- Taking `keypoints[2::3]` of a list of length `3 * n` has length `n`. -/
theorem everyThird_length (l : List ℚ) (n : Nat) (h : l.length = 3 * n) :
    (everyThird l).length = n := by
  induction n generalizing l with
  | zero =>
    have hl : l = [] := List.eq_nil_of_length_eq_zero (by simpa using h)
    subst hl; rfl
  | succ n ih =>
    rcases l with _ | ⟨a, _ | ⟨b, _ | ⟨c, rest⟩⟩⟩
    · simp at h
    · simp at h; omega
    · simp at h; omega
    · have hr : rest.length = 3 * n := by simp at h; omega
      simp [everyThird, ih rest hr]

/-- C1: two `RleMask`s constructed from RLEs `r1`, `r2` are equal iff the
RLEs are bit-identical, whatever the other construction arguments; and
there are distinct RLEs with identical decoded pixel arrays whose masks
are still unequal — equality is decided on the stored RLE, not the
decoded mask. -/
theorem rleMask_eq_iff_rle_eq :
    (∀ (r1 r2 : Rle) (l1 l2 i1 i2 g1 g2 : Option Nat),
      rleMaskEq ⟨r1, l1, i1, g1⟩ ⟨r2, l2, i2, g2⟩ = true ↔ r1 = r2) ∧
    (∃ r1 r2 : Rle, rleDecode r1 = rleDecode r2 ∧ r1 ≠ r2 ∧
      rleMaskEq ⟨r1, none, none, none⟩ ⟨r2, none, none, none⟩ = false) := by
  constructor
  · intro r1 r2 l1 l2 i1 i2 g1 g2
    simp [rleMaskEq]
  · exact ⟨⟨(1, 1), [0, 1]⟩, ⟨(1, 1), [0, 1, 0]⟩, by decide, by decide, by decide⟩

/-- C2 counterexample: a loader map holding both an `instances` loader
(tagged 0) and a `labels` loader (tagged 1) makes `_load_categories` build
labels from the `labels` loader, not the `instances` loader as claimed. -/
theorem chooseLabelLoader_prefers_labels_counterexample :
    chooseLabelLoader (fun t => match t with
      | CocoTask.instances => some 0
      | CocoTask.labels => some 1
      | _ => none) = some 1 ∧
    chooseLabelLoader (fun t => match t with
      | CocoTask.instances => some 0
      | CocoTask.labels => some 1
      | _ => none) ≠ some 0 := by
  constructor
  · rfl
  · intro h
    rw [show chooseLabelLoader (fun t => match t with
      | CocoTask.instances => some 0
      | CocoTask.labels => some 1
      | _ => none) = some 1 from rfl] at h
    cases h

/-- C2 amended: the label-loader preference order in
`CocoExtractor._load_categories` is `labels`, then `instances`, then
`person_keypoints`: an explicit `labels` loader always wins; `instances`
is used only when no `labels` loader exists; `person_keypoints` only when
neither exists. -/
theorem chooseLabelLoader_preference {L : Type} (loaders : CocoTask → Option L) :
    (loaders CocoTask.labels ≠ none →
      chooseLabelLoader loaders = loaders CocoTask.labels) ∧
    (loaders CocoTask.labels = none → loaders CocoTask.instances ≠ none →
      chooseLabelLoader loaders = loaders CocoTask.instances) ∧
    (loaders CocoTask.labels = none → loaders CocoTask.instances = none →
      chooseLabelLoader loaders = loaders CocoTask.person_keypoints) := by
  refine ⟨?_, ?_, ?_⟩
  · intro h
    cases hl : loaders CocoTask.labels with
    | none => exact absurd hl h
    | some x => simp [chooseLabelLoader, hl]
  · intro h h2
    cases hi : loaders CocoTask.instances with
    | none => exact absurd hi h2
    | some x => simp [chooseLabelLoader, h, hi]
  · intro h h2
    cases hp : loaders CocoTask.person_keypoints with
    | none => simp [chooseLabelLoader, h, h2, hp]
    | some x => simp [chooseLabelLoader, h, h2, hp]

/-- Witness for `chooseLabelLoader_preference` at a concrete loader map. -/
theorem chooseLabelLoader_preference_witness :
    chooseLabelLoader (fun t => match t with
      | CocoTask.labels => some 7
      | _ => (none : Option Nat)) = some 7 := by
  have h := chooseLabelLoader_preference (L := Nat) (fun t => match t with
    | CocoTask.labels => some 7
    | _ => none)
  exact h.1 (by decide)

/-- C4: `_parse_label` maps category id 0 and absent category id to no
label; any other id present in the id→index table maps through the table;
an id absent from the table is a fatal error (`KeyError` on the dict, the
spec's `CategoryMismatchError`) — never a silent default. -/
theorem parse_label_spec (label_map : List (Nat × Nat)) (cat_id : Option Nat) :
    (cat_id = none → parse_label label_map cat_id = .ok none) ∧
    (cat_id = some 0 → parse_label label_map cat_id = .ok none) ∧
    (∀ c, c ≠ 0 → cat_id = some c →
      (∀ idx, dictGet label_map c = some idx →
        parse_label label_map cat_id = .ok (some idx)) ∧
      (dictGet label_map c = none →
        parse_label label_map cat_id = .error "CategoryMismatchError")) := by
  refine ⟨?_, ?_, ?_⟩
  · rintro rfl; rfl
  · rintro rfl; rfl
  · rintro c hc rfl
    constructor
    · intro idx hidx
      cases c with
      | zero => exact absurd rfl hc
      | succ n => simp [parse_label, hidx]
    · intro hnone
      cases c with
      | zero => exact absurd rfl hc
      | succ n => simp [parse_label, hnone]

/-- Witness for `parse_label_spec`: with table `{5 ↦ 0, 9 ↦ 1}`, id 9 maps
to index 1, id 7 is a fatal error, id 0 and absent give no label. -/
theorem parse_label_spec_witness :
    parse_label [(5, 0), (9, 1)] (some 9) = .ok (some 1) ∧
    parse_label [(5, 0), (9, 1)] (some 7) = .error "CategoryMismatchError" ∧
    parse_label [(5, 0), (9, 1)] (some 0) = .ok none ∧
    parse_label [(5, 0), (9, 1)] none = .ok none := by
  refine ⟨?_, ?_, ?_, ?_⟩
  · exact ((parse_label_spec [(5, 0), (9, 1)] (some 9)).2.2 9 (by decide) rfl).1
      1 (by decide)
  · exact ((parse_label_spec [(5, 0), (9, 1)] (some 7)).2.2 7 (by decide) rfl).2
      (by decide)
  · exact (parse_label_spec [(5, 0), (9, 1)] (some 0)).2.1 rfl
  · exact (parse_label_spec [(5, 0), (9, 1)] none).1 rfl

/-- C5: for an instances record whose segmentation is a polygon list, the
decoder emits one `Polygon` per part plus a merged `Mask` (RLE union of
the parts) exactly when merge-instance-polygons is on; for an
uncompressed-RLE segmentation it emits exactly one `Mask` holding the
RLE converted to compressed form; for a compressed-RLE segmentation
exactly one `Mask` holding it directly; in every case exactly one `Bbox`
from the record's box, and every emitted annotation carries
`group = record id`. -/
theorem parse_instances_ann_cases
    (frPoly : List (List ℚ) → Nat → Nat → List Rle)
    (mergeRle : List Rle → Rle)
    (frUnc : Nat × Nat → List Nat → Rle)
    (label_map : List (Nat × Nat)) :
    (∀ (merge : Bool) (hw : Nat × Nat) (ann : InstanceAnn)
       (parts : List (List ℚ)) (out : List AnnObj),
      ann.segmentation = some (.polygons parts) →
      parse_instances_ann frPoly mergeRle frUnc label_map merge
        (some hw) ann [] = .ok out →
      out.filterMap AnnObj.polygonPts = parts ∧
      out.filterMap AnnObj.maskRle =
        (if merge then [mergeRle (frPoly parts hw.1 hw.2)] else []) ∧
      out.filterMap AnnObj.bboxXYWH = [ann.bbox] ∧
      (∀ a ∈ out, a.group = ann.id)) ∧
    (∀ (merge : Bool) (ii : Option (Nat × Nat)) (ann : InstanceAnn)
       (size : Nat × Nat) (counts : List Nat) (out : List AnnObj),
      ann.segmentation = some (.uncompressedRle size counts) →
      parse_instances_ann frPoly mergeRle frUnc label_map merge
        ii ann [] = .ok out →
      out.filterMap AnnObj.polygonPts = [] ∧
      out.filterMap AnnObj.maskRle = [frUnc size counts] ∧
      out.filterMap AnnObj.bboxXYWH = [ann.bbox] ∧
      (∀ a ∈ out, a.group = ann.id)) ∧
    (∀ (merge : Bool) (ii : Option (Nat × Nat)) (ann : InstanceAnn)
       (rle : Rle) (out : List AnnObj),
      ann.segmentation = some (.compressedRle rle) →
      parse_instances_ann frPoly mergeRle frUnc label_map merge
        ii ann [] = .ok out →
      out.filterMap AnnObj.polygonPts = [] ∧
      out.filterMap AnnObj.maskRle = [rle] ∧
      out.filterMap AnnObj.bboxXYWH = [ann.bbox] ∧
      (∀ a ∈ out, a.group = ann.id)) := by
  refine ⟨?_, ?_, ?_⟩
  · rintro merge hw ⟨i, sc, ⟨b1, b2, b3, b4⟩, cid, ic, seg⟩ parts out hseg hout
    simp only [InstanceAnn.segmentation] at hseg
    subst hseg
    simp only [parse_instances_ann] at hout
    cases hlb : parse_label label_map cid with
    | error e => rw [hlb] at hout; cases hout
    | ok lbl =>
      rw [hlb] at hout
      cases merge with
      | false =>
        simp only [if_neg Bool.false_ne_true, List.nil_append,
          Except.ok.injEq] at hout
        subst hout
        refine ⟨?_, ?_, ?_, ?_⟩
        · simp [List.filterMap_append, filterMap_polygonPts_map,
            AnnObj.polygonPts]
        · simp [List.filterMap_append, filterMap_maskRle_map_polygons,
            AnnObj.maskRle]
        · simp [List.filterMap_append, filterMap_bboxXYWH_map_polygons,
            AnnObj.bboxXYWH]
        · intro a ha
          simp only [List.mem_append, List.mem_map, List.mem_singleton] at ha
          rcases ha with ⟨pp, _, rfl⟩ | rfl <;> rfl
      | true =>
        simp only [if_pos, List.nil_append, Except.ok.injEq] at hout
        subst hout
        refine ⟨?_, ?_, ?_, ?_⟩
        · simp [List.filterMap_append, filterMap_polygonPts_map,
            AnnObj.polygonPts]
        · simp [List.filterMap_append, filterMap_maskRle_map_polygons,
            AnnObj.maskRle]
        · simp [List.filterMap_append, filterMap_bboxXYWH_map_polygons,
            AnnObj.bboxXYWH]
        · intro a ha
          simp only [List.mem_append, List.mem_map, List.mem_cons,
            List.mem_singleton, List.not_mem_nil, or_false] at ha
          rcases ha with ⟨pp, _, rfl⟩ | rfl | rfl <;> rfl
  · rintro merge ii ⟨i, sc, ⟨b1, b2, b3, b4⟩, cid, ic, seg⟩ size counts out
      hseg hout
    simp only [InstanceAnn.segmentation] at hseg
    subst hseg
    simp only [parse_instances_ann] at hout
    cases hlb : parse_label label_map cid with
    | error e => rw [hlb] at hout; cases hout
    | ok lbl =>
      rw [hlb] at hout
      simp only [List.nil_append, Except.ok.injEq] at hout
      subst hout
      refine ⟨?_, ?_, ?_, ?_⟩
      · simp [AnnObj.polygonPts, AnnObj.maskRle, AnnObj.bboxXYWH]
      · simp [AnnObj.maskRle]
      · simp [AnnObj.maskRle, AnnObj.bboxXYWH]
      · intro a ha
        simp only [List.mem_cons, List.mem_singleton, List.not_mem_nil,
          or_false] at ha
        rcases ha with rfl | rfl <;> rfl
  · rintro merge ii ⟨i, sc, ⟨b1, b2, b3, b4⟩, cid, ic, seg⟩ rle out hseg hout
    simp only [InstanceAnn.segmentation] at hseg
    subst hseg
    simp only [parse_instances_ann] at hout
    cases hlb : parse_label label_map cid with
    | error e => rw [hlb] at hout; cases hout
    | ok lbl =>
      rw [hlb] at hout
      simp only [List.nil_append, Except.ok.injEq] at hout
      subst hout
      refine ⟨?_, ?_, ?_, ?_⟩
      · simp [AnnObj.polygonPts, AnnObj.maskRle, AnnObj.bboxXYWH]
      · simp [AnnObj.maskRle]
      · simp [AnnObj.maskRle, AnnObj.bboxXYWH]
      · intro a ha
        simp only [List.mem_cons, List.mem_singleton, List.not_mem_nil,
          or_false] at ha
        rcases ha with rfl | rfl <;> rfl

/-- Witness for `parse_instances_ann_cases`: a one-part polygon
record with merging enabled yields the polygon part, the merged mask, and
the record's box. -/
theorem parse_instances_ann_cases_witness :
    List.filterMap AnnObj.polygonPts
      [AnnObj.polygon [1] (some 0) (some 5) (some 5)
          [("is_crowd", AttrVal.bool false)],
        AnnObj.mask ⟨(2, 2), [0, 4]⟩ (some 0) (some 5) (some 5)
          [("is_crowd", AttrVal.bool false)],
        AnnObj.bbox 0 0 2 2 (some 0) (some 5)
          [("is_crowd", AttrVal.bool false)] (some 5)] = [[1]] ∧
    List.filterMap AnnObj.maskRle
      [AnnObj.polygon [1] (some 0) (some 5) (some 5)
          [("is_crowd", AttrVal.bool false)],
        AnnObj.mask ⟨(2, 2), [0, 4]⟩ (some 0) (some 5) (some 5)
          [("is_crowd", AttrVal.bool false)],
        AnnObj.bbox 0 0 2 2 (some 0) (some 5)
          [("is_crowd", AttrVal.bool false)] (some 5)] = [⟨(2, 2), [0, 4]⟩] ∧
    List.filterMap AnnObj.bboxXYWH
      [AnnObj.polygon [1] (some 0) (some 5) (some 5)
          [("is_crowd", AttrVal.bool false)],
        AnnObj.mask ⟨(2, 2), [0, 4]⟩ (some 0) (some 5) (some 5)
          [("is_crowd", AttrVal.bool false)],
        AnnObj.bbox 0 0 2 2 (some 0) (some 5)
          [("is_crowd", AttrVal.bool false)] (some 5)] = [(0, 0, 2, 2)] := by
  have h := (parse_instances_ann_cases (fun _ _ _ => [⟨(2, 2), [1, 3]⟩])
    (fun _ => ⟨(2, 2), [0, 4]⟩) (fun s c => ⟨s, c⟩) [(1, 0)]).1 true (2, 2)
    ⟨some 5, none, (0, 0, 2, 2), some 1, 0, some (.polygons [[1]])⟩ [[1]]
    [AnnObj.polygon [1] (some 0) (some 5) (some 5)
        [("is_crowd", AttrVal.bool false)],
      AnnObj.mask ⟨(2, 2), [0, 4]⟩ (some 0) (some 5) (some 5)
        [("is_crowd", AttrVal.bool false)],
      AnnObj.bbox 0 0 2 2 (some 0) (some 5)
        [("is_crowd", AttrVal.bool false)] (some 5)] rfl rfl
  exact ⟨h.1, h.2.1, h.2.2.1⟩

/-- C6: for a person-keypoints record with flat keypoint array of length
`3 * n`, the decoder emits a `Points` annotation whose geometry drops
every third element and whose visibility is exactly every third element
(length `n`); when the record carries a box, a companion `Bbox` follows
sharing the `Points` annotation's group, the record's id. -/
theorem parse_person_keypoints_spec (label_map : List (Nat × Nat)) :
    ∀ (ann : KeypointsAnn) (n : Nat) (lbl : Option Nat)
      (out : List AnnObj),
      ann.keypoints.length = 3 * n →
      parse_label label_map ann.category_id = .ok lbl →
      parse_person_keypoints_ann label_map ann [] = .ok out →
      (everyThird ann.keypoints).length = n ∧
      out.filterMap AnnObj.pointsData =
        [(dropEveryThird ann.keypoints, everyThird ann.keypoints)] ∧
      (ann.bbox = none →
        out = [.points (dropEveryThird ann.keypoints)
          (everyThird ann.keypoints) lbl ann.id (baseAttributes ann.score)
          none]) ∧
      (∀ x y w h, ann.bbox = some (x, y, w, h) →
        out = [.points (dropEveryThird ann.keypoints)
            (everyThird ann.keypoints) lbl ann.id (baseAttributes ann.score)
            ann.id,
          .bbox x y w h lbl none [] ann.id] ∧
        ∀ a ∈ out, a.group = ann.id) := by
  rintro ⟨i, sc, kp, bb, cid⟩ n lbl out hlen hlb hout
  simp only [parse_person_keypoints_ann] at hout
  rw [hlb] at hout
  cases bb with
  | none =>
    simp only [List.nil_append, Except.ok.injEq] at hout
    subst hout
    refine ⟨everyThird_length kp n hlen, ?_, ?_, ?_⟩
    · simp [AnnObj.pointsData]
    · intro _; rfl
    · intro x y w h hsome; cases hsome
  | some b =>
    obtain ⟨x0, y0, w0, h0⟩ := b
    simp only [List.nil_append, List.append_assoc, List.singleton_append,
      Except.ok.injEq] at hout
    subst hout
    refine ⟨everyThird_length kp n hlen, ?_, ?_, ?_⟩
    · simp [AnnObj.pointsData]
    · intro hnone; exact absurd hnone (Option.some_ne_none _)
    · intro x y w h hsome
      simp only [Option.some.injEq, Prod.mk.injEq] at hsome
      obtain ⟨rfl, rfl, rfl, rfl⟩ := hsome
      refine ⟨rfl, ?_⟩
      intro a ha
      simp only [List.mem_cons, List.mem_singleton, List.not_mem_nil,
        or_false] at ha
      rcases ha with rfl | rfl <;> rfl

/-- Witness for `parse_person_keypoints_spec`: a six-element keypoint
array with a box yields points `[1, 2, 3, 4]`, visibility `[0, 2]` of
length 2, and a companion box in the same group. -/
theorem parse_person_keypoints_spec_witness :
    (everyThird [1, 2, 0, 3, 4, 2]).length = 2 ∧
    List.filterMap AnnObj.pointsData
      [AnnObj.points [1, 2, 3, 4] [0, 2] (some 0) (some 3) [] (some 3),
        AnnObj.bbox 0 0 5 5 (some 0) none [] (some 3)] =
      [([1, 2, 3, 4], [0, 2])] ∧
    [AnnObj.points [1, 2, 3, 4] [0, 2] (some 0) (some 3) [] (some 3),
        AnnObj.bbox 0 0 5 5 (some 0) none [] (some 3)] =
      [AnnObj.points [1, 2, 3, 4] [0, 2] (some 0) (some 3) [] (some 3),
        AnnObj.bbox 0 0 5 5 (some 0) none [] (some 3)] := by
  have h := parse_person_keypoints_spec [(1, 0)]
    ⟨some 3, none, [1, 2, 0, 3, 4, 2], some (0, 0, 5, 5), some 1⟩ 2 (some 0)
    [AnnObj.points [1, 2, 3, 4] [0, 2] (some 0) (some 3) [] (some 3),
      AnnObj.bbox 0 0 5 5 (some 0) none [] (some 3)] (by decide) rfl rfl
  exact ⟨h.1, h.2.1, (h.2.2.2 0 0 5 5 rfl).1⟩

/-! ## YOLO converter (`_make_yolo_bbox`, `YoloConverter.__call__`) -/

/-- Modelled from the spec: `BboxObject.points`
(datumaro/components/extractor.py, not under src/) — the four-number box
`(x, y, w, h)` in absolute pixel units is exposed as the corner points
`(x, y, x + w, y + h)`, per the spec scenario arithmetic
`cx = (10 + 30) / 2 / 100` for `bbox = [10, 10, 20, 20]`. -/
def bboxPoints (x y w h : ℚ) : ℚ × ℚ × ℚ × ℚ :=
  (x, y, x + w, y + h)

/-- The `_make_yolo_bbox` helper (yolo.py lines 17-25): center x and y, width and
height, each normalized by the image size `(image width, image height)`. -/
def make_yolo_bbox (img_size : ℚ × ℚ) (box : ℚ × ℚ × ℚ × ℚ) :
    ℚ × ℚ × ℚ × ℚ :=
  ((box.1 + box.2.2.1) / 2 / img_size.1,
   (box.2.1 + box.2.2.2) / 2 / img_size.2,
   (box.2.2.1 - box.1) / img_size.1,
   (box.2.2.2 - box.2.1) / img_size.2)

/-- Left-pad a digit string with zeros to width `n`. -/
def padLeftZeros (s : String) (n : Nat) : String :=
  String.mk (List.replicate (n - s.length) '0') ++ s

/-- Six-decimal formatting of the nonnegative value `p / d`: the rounded
integer `(p * 10^6 + d/2) / d` is printed as integer part, dot, and six
zero-padded fraction digits. -/
def fixed6Digits (p : Int) (d : Nat) : String :=
  let n := ((p * 2000000 + d) / (2 * d : Int)).toNat
  toString (n / 1000000) ++ "." ++ padLeftZeros (toString (n % 1000000)) 6

/-- Python percent-formatting `%.6f` of the exact rational `q`: sign, then the
rounded six-decimal rendering of `|q| = |num| / den`. -/
def fixed6 (q : ℚ) : String :=
  if q.num < 0 then "-" ++ fixed6Digits (-q.num) q.den
  else fixed6Digits q.num q.den

/-- The per-item annotation text built by `YoloConverter.__call__` (lines
80-95): starting from the empty string, each bbox-typed annotation with a
label appends one line of label then the four space-joined 6-decimal fields
from `_make_yolo_bbox((width, height), bbox.points)`; non-bbox
annotations and unlabeled boxes are skipped. -/
def yoloItemAnnText (width height : ℚ) (anns : List AnnObj) : String :=
  anns.foldl (fun acctext a =>
    match a with
    | .bbox x y w h (some label) _ _ _ =>
      let yb := make_yolo_bbox (width, height) (bboxPoints x y w h)
      let joined := String.intercalate " "
        [fixed6 yb.1, fixed6 yb.2.1, fixed6 yb.2.2.1, fixed6 yb.2.2.2]
      acctext ++ toString label ++ " " ++ joined ++ "\n"
    | _ => acctext) ""

/-- C3: with categories `[{id:1,"cat"},{id:2,"dog"}]`, an image of width
100 and height 50, and one instances annotation `bbox=[10,10,20,20]`,
`category_id=2`, the decoder yields a single labeled box and the YOLO
converter writes for that item exactly the annotation line
`"1 0.200000 0.400000 0.200000 0.400000"`. -/
theorem yolo_scenario_line :
    parse_instances_ann (fun _ _ _ => []) (fun _ => ⟨(0, 0), []⟩)
      (fun s c => ⟨s, c⟩) (loadLabelCategories [(1, "cat"), (2, "dog")]).2
      false (some (50, 100)) ⟨some 1, none, (10, 10, 20, 20), some 2, 0, none⟩
      [] = .ok [AnnObj.bbox 10 10 20 20 (some 1) (some 1)
        [("is_crowd", AttrVal.bool false)] none] ∧
    yoloItemAnnText 100 50 [AnnObj.bbox 10 10 20 20 (some 1) (some 1)
        [("is_crowd", AttrVal.bool false)] none] =
      "1 0.200000 0.400000 0.200000 0.400000" ++ "\n" := by
  refine ⟨rfl, ?_⟩
  have h1 : make_yolo_bbox (100, 50) (bboxPoints 10 10 20 20) =
      (mkRat 1 5, mkRat 2 5, mkRat 1 5, mkRat 2 5) := by
    simp only [make_yolo_bbox, bboxPoints, Rat.mkRat_eq_div]
    norm_num
  simp only [yoloItemAnnText, List.foldl, h1]
  rfl

/-! ## Converter subset dispatch (`YoloConverter.__call__` lines 46-63,
`DetectionApiConverter.__call__` lines 114-123) -/

/-- Modelled from the spec: `DEFAULT_SUBSET_NAME`
(datumaro/components/extractor.py, not under src/) — the sentinel
`"default"` subset name a `DatasetItem` falls back to when the source
format declares no subset. -/
def DEFAULT_SUBSET_NAME : String := "default"

/-- The subset list both converters iterate: `extractor.subsets()`,
replaced by `[None]` when it is empty. -/
def pySubsets (subsets : List String) : List (Option String) :=
  if subsets.length = 0 then [none] else subsets.map some

/-- A per-subset decision of the YOLO converter's loop body: export a
subset under a name (from the whole extractor when the flag is set), or
skip it with a warning and `continue`. -/
inductive YoloDecision where
  | exportSubset (name : String) (wholeExtractor : Bool)
  | skipWithWarning (name : String)
deriving DecidableEq, Repr

/-- The `YoloConverter.__call__` subset dispatch (lines 52-63),
parameterized by `YoloPath.SUBSET_NAMES` and
`YoloPath.DEFAULT_SUBSET_NAME` (formats/yolo.py, not under src/): a
truthy name on the whitelist is exported; a falsy name (the injected
`None`, or an empty string) becomes the default subset over the whole
extractor; any other name is skipped with a warning. -/
def yoloDecide (subset_names : List String) (default_name : String) :
    Option String → YoloDecision
  | some n =>
    if n ≠ "" ∧ n ∈ subset_names then .exportSubset n false
    else if n = "" then .exportSubset default_name true
    else .skipWithWarning n
  | none => .exportSubset default_name true

/-- The whole subset plan of `YoloConverter.__call__`: the loop's decision
for every entry of the (possibly defaulted) subset list — a skip does not
abort the loop. -/
def yoloSubsetPlan (subset_names : List String) (default_name : String)
    (subsets : List String) : List YoloDecision :=
  (pySubsets subsets).map (yoloDecide subset_names default_name)

/-- The `DetectionApiConverter.__call__` subset dispatch (lines 118-123):
every entry is exported, a falsy name as the default subset over the
whole extractor. -/
def detectionApiPlan (subsets : List String) : List (String × Bool) :=
  (pySubsets subsets).map (fun s =>
    match s with
    | some n => if n ≠ "" then (n, false) else (DEFAULT_SUBSET_NAME, true)
    | none => (DEFAULT_SUBSET_NAME, true))

/-- The record files written by `DetectionApiConverter.__call__` (line
142): one `<subset>.tfrecord` per planned subset. -/
def detectionApiRecordFiles (subsets : List String) : List String :=
  (detectionApiPlan subsets).map (fun p => p.1 ++ ".tfrecord")

/-- C7: a source with zero declared subsets makes each converter
synthesize exactly one subset, named by the format's default subset
constant and iterating the whole extractor; the record-format converter
then writes exactly one record file, named after the default subset
constant. -/
theorem converters_default_subset :
    (∀ (subset_names : List String) (default_name : String),
      yoloSubsetPlan subset_names default_name [] =
        [.exportSubset default_name true]) ∧
    detectionApiPlan [] = [(DEFAULT_SUBSET_NAME, true)] ∧
    detectionApiRecordFiles [] = [DEFAULT_SUBSET_NAME ++ ".tfrecord"] ∧
    DEFAULT_SUBSET_NAME ++ ".tfrecord" = "default.tfrecord" := by
  exact ⟨fun _ _ => rfl, rfl, rfl, rfl⟩

/-- C8: the YOLO converter skips a subset with a warning exactly when it
has a nonempty name off the whitelist; every whitelisted named subset is
still exported even alongside skipped ones, and the plan always covers
the full subset list — a skip never aborts the loop. -/
theorem yolo_skip_unrecognized_subset
    (subset_names : List String) (default_name : String) :
    (∀ (s : Option String) (name : String),
      yoloDecide subset_names default_name s = .skipWithWarning name ↔
        (s = some name ∧ name ≠ "" ∧ name ∉ subset_names)) ∧
    (∀ (subsets : List String) (name : String),
      name ∈ subsets → name ≠ "" → name ∈ subset_names →
      YoloDecision.exportSubset name false ∈
        yoloSubsetPlan subset_names default_name subsets) ∧
    (∀ subsets : List String,
      (yoloSubsetPlan subset_names default_name subsets).length =
        (pySubsets subsets).length) := by
  refine ⟨?_, ?_, ?_⟩
  · intro s name
    cases s with
    | none => simp [yoloDecide]
    | some n =>
      simp only [yoloDecide]
      split_ifs with h1 h2
      · constructor
        · intro h; cases h
        · rintro ⟨heq, _, hnotin⟩
          rw [Option.some.injEq] at heq
          subst heq
          exact absurd h1.2 hnotin
      · constructor
        · intro h; cases h
        · rintro ⟨heq, hne, _⟩
          rw [Option.some.injEq] at heq
          subst heq
          exact absurd h2 hne
      · constructor
        · intro h
          injection h with h3
          subst h3
          exact ⟨rfl, h2, fun hin => h1 ⟨h2, hin⟩⟩
        · rintro ⟨heq, _, _⟩
          rw [Option.some.injEq] at heq
          subst heq
          rfl
  · intro subsets name hmem hne hwl
    have hlen : ¬ subsets.length = 0 := by
      intro h0
      rw [List.length_eq_zero] at h0
      subst h0
      cases hmem
    have hps : pySubsets subsets = subsets.map some := by
      simp only [pySubsets, if_neg hlen]
    have hdec : yoloDecide subset_names default_name (some name) =
        .exportSubset name false := by
      simp [yoloDecide, hne, hwl]
    rw [yoloSubsetPlan, hps, List.map_map]
    exact List.mem_map.mpr ⟨name, hmem, by simpa using hdec⟩
  · intro subsets
    simp [yoloSubsetPlan]

/-- Witness for `yolo_skip_unrecognized_subset`: with whitelist
`["train", "valid"]`, the subset `"bogus"` is skipped with a warning
while `"train"` from the same subset list is still exported. -/
theorem yolo_skip_unrecognized_subset_witness :
    YoloDecision.exportSubset "train" false ∈
      yoloSubsetPlan ["train", "valid"] "train" ["bogus", "train"] ∧
    yoloDecide ["train", "valid"] "train" (some "bogus") =
      .skipWithWarning "bogus" := by
  constructor
  · exact (yolo_skip_unrecognized_subset ["train", "valid"] "train").2.1
      ["bogus", "train"] "train" (by decide) (by decide) (by decide)
  · exact ((yolo_skip_unrecognized_subset ["train", "valid"] "train").1
      (some "bogus") "bogus").mpr ⟨rfl, by decide, by decide⟩

/-! ## Importer file classification (`CocoImporter.find_subsets`,
lines 45-70) -/

/-- Splitting a character list at every occurrence of a separator
character (Python str.split with a one-character separator, on the
character data). -/
def splitChar (c : Char) : List Char -> List (List Char)
  | [] => [[]]
  | x :: xs =>
    if x = c then [] :: splitChar c xs
    else
      match splitChar c xs with
      | [] => [[x]]
      | g :: gs => (x :: g) :: gs

/-- Python str.split at a one-character separator. -/
def strSplitChar (c : Char) (s : String) : List String :=
  (splitChar c s.data).map String.mk

/-- Python str.endswith. -/
def strEndsWith (s suf : String) : Bool :=
  suf.data.isSuffixOf s.data

/-- Python rsplit at underscore with maxsplit 1: split at the last
underscore, the whole string when there is none. -/
def rsplitUnderscore (s : String) : List String :=
  let parts := strSplitChar '_' s
  match parts with
  | [] => [s]
  | [_] => [s]
  | _ => [String.intercalate "_" parts.dropLast, parts.getLastD ""]

/-- Python `osp.splitext(name)[0]` for ordinary file names: the name
without the extension after its last dot (the leading-dot special case of
`splitext` does not arise for the `<task>_<subset>.json` names this is
applied to). -/
def splitextStem (s : String) : String :=
  let parts := strSplitChar '.' s
  match parts with
  | [] => s
  | [_] => s
  | _ => String.intercalate "." parts.dropLast

/-- One step of `CocoImporter.find_subsets` (lines 53-69) on a directory
entry: non-`.json` names are passed over (`.ok none`); otherwise the stem
is split at the last underscore into task token and subset name; an
unrecognized task token raises
`'Unknown subset type %s, only known are: %s'` (the spec's
`UnknownTaskError`), and a missing subset part is the Python `IndexError`
on `name_parts[1]`. -/
def classifyAnnFile (ann_file : String) :
    Except String (Option (CocoTask × String)) :=
  if ¬ strEndsWith ann_file ".json" then .ok none
  else
    match rsplitUnderscore (splitextStem ann_file) with
    | [] => .error "IndexError"
    | ann_type :: rest =>
      match cocoTaskOfName ann_type with
      | none => .error ("Unknown subset type " ++ ann_type ++
          ", only known are: " ++
          String.intercalate ", " (cocoTaskList.map CocoTask.name))
      | some task =>
        match rest with
        | subset_name :: _ => .ok (some (task, subset_name))
        | [] => .error "IndexError"

/-- C9: a `.json` annotation file whose task prefix is not in the task
vocabulary raises the unknown-task error naming the offending token and
enumerating the full vocabulary
`instances, person_keypoints, captions, labels, image_info`; a file with
a recognized prefix is assigned that task and the trailing subset name. -/
theorem find_subsets_task_classification :
    (∀ (ann_file tok : String) (rest : List String),
      strEndsWith ann_file ".json" = true →
      rsplitUnderscore (splitextStem ann_file) = tok :: rest →
      cocoTaskOfName tok = none →
      classifyAnnFile ann_file = .error ("Unknown subset type " ++ tok ++
        ", only known are: " ++
        "instances, person_keypoints, captions, labels, image_info")) ∧
    (∀ (ann_file tok subset : String) (task : CocoTask) (rest : List String),
      strEndsWith ann_file ".json" = true →
      rsplitUnderscore (splitextStem ann_file) = tok :: subset :: rest →
      cocoTaskOfName tok = some task →
      classifyAnnFile ann_file = .ok (some (task, subset))) := by
  constructor
  · intro ann_file tok rest hjson hsplit htok
    simp only [classifyAnnFile, hjson, hsplit, htok]
    rfl
  · intro ann_file tok subset task rest hjson hsplit htok
    simp only [classifyAnnFile, hjson, hsplit, htok]
    rfl

/-- Witness for `find_subsets_task_classification`: `foo_train.json` is
the unknown-task error naming `foo` and the vocabulary;
`labels_train.json` is task `labels`, subset `train`. -/
theorem find_subsets_task_classification_witness :
    classifyAnnFile "foo_train.json" = .error ("Unknown subset type " ++
      "foo" ++ ", only known are: " ++
      "instances, person_keypoints, captions, labels, image_info") ∧
    classifyAnnFile "labels_train.json" =
      .ok (some (CocoTask.labels, "train")) := by
  constructor
  · exact find_subsets_task_classification.1 "foo_train.json" "foo" ["train"]
      (by decide) (by decide) (by decide)
  · exact find_subsets_task_classification.2 "labels_train.json" "labels"
      "train" CocoTask.labels [] (by decide) (by decide) (by decide)

/-! ## Record-format converter (`_make_tf_example`, tfrecord.py
lines 25-103) -/

/-- A dataset item as consumed by `_make_tf_example`: its id, the image
shape `(height, width)` when an image is present (`item.has_image`,
`item.image.shape`), and the annotations. -/
structure TfItem where
  id : String
  image : Option (Nat × Nat)
  annotations : List AnnObj

/-- Image height and width written by `_make_tf_example` (lines 50-54):
the image shape, or `(0, 0)` when the item has no image. -/
def tfDims (item : TfItem) : Nat × Nat :=
  match item.image with
  | some hw => hw
  | none => (0, 0)

/-- Python division as used in the bbox normalization: a zero denominator
raises `ZeroDivisionError`. -/
def pyDiv (a b : ℚ) : Except String ℚ :=
  if b = 0 then .error "ZeroDivisionError" else .ok (a / b)

/-- Python `string.printable` membership: ASCII 0x20-0x7e plus the
whitespace controls 9-13. -/
def isPrintableAscii (c : Char) : Bool :=
  (32 ≤ c.toNat && c.toNat ≤ 126) || (9 ≤ c.toNat && c.toNat ≤ 13)

/-- The `_make_printable` filter (tfrecord.py lines 21-23). -/
def makePrintable (s : String) : String :=
  String.mk (s.data.filter isPrintableAscii)

/-- The bbox-normalization loop of `_make_tf_example` (lines 72-88): for
each bbox-typed annotation, divide corner points 0 and 2 by the width and
points 1 and 3 by the height, and collect the printable-filtered class
text and the class id through the converter's label lookups. -/
def tfNormalizeBoxes (get_label : Option Nat → String)
    (get_label_id : Option Nat → Nat) (width height : ℚ) :
    List AnnObj →
    Except String (List ℚ × List ℚ × List ℚ × List ℚ × List String × List Nat)
  | [] => .ok ([], [], [], [], [], [])
  | .bbox x y w h lbl _ _ _ :: rest =>
    let pts := bboxPoints x y w h
    match pyDiv pts.1 width, pyDiv pts.2.2.1 width,
        pyDiv pts.2.1 height, pyDiv pts.2.2.2 height with
    | .ok xmin, .ok xmax, .ok ymin, .ok ymax =>
      match tfNormalizeBoxes get_label get_label_id width height rest with
      | .ok (xmins, xmaxs, ymins, ymaxs, texts, ids) =>
        .ok (xmin :: xmins, xmax :: xmaxs, ymin :: ymins, ymax :: ymaxs,
          makePrintable (get_label lbl) :: texts, get_label_id lbl :: ids)
      | .error e => .error e
    | .error e, _, _, _ => .error e
    | _, .error e, _, _ => .error e
    | _, _, .error e, _ => .error e
    | _, _, _, .error e => .error e
  | _ :: rest => tfNormalizeBoxes get_label get_label_id width height rest

/-- Whether an annotation is bbox-typed (the record loop's
`ann.type is AnnotationType.bbox` filter). -/
def AnnObj.isBboxType : AnnObj → Bool
  | .bbox .. => true
  | _ => false

/-- The `_make_tf_example` fields the record depends on: the written
height/width (`(0, 0)` without an image) and the normalized bbox feature
lists, added only when the item has at least one bbox annotation. -/
def make_tf_example (get_label : Option Nat → String)
    (get_label_id : Option Nat → Nat) (item : TfItem) :
    Except String ((Nat × Nat) ×
      Option (List ℚ × List ℚ × List ℚ × List ℚ × List String × List Nat)) :=
  let dims := tfDims item
  match tfNormalizeBoxes get_label get_label_id (dims.2 : ℚ) (dims.1 : ℚ)
      item.annotations with
  | .error e => .error e
  | .ok lists =>
    if (item.annotations.filter AnnObj.isBboxType).length ≠ 0 then
      .ok (dims, some lists)
    else
      .ok (dims, none)

/-- With zero width and height, the normalization loop fails with
`ZeroDivisionError` as soon as the annotation list holds a bbox. -/
theorem tfNormalizeBoxes_zero_div (get_label : Option Nat → String)
    (get_label_id : Option Nat → Nat) (anns : List AnnObj)
    (hbb : ∃ a ∈ anns, AnnObj.isBboxType a = true) :
    tfNormalizeBoxes get_label get_label_id 0 0 anns =
      .error "ZeroDivisionError" := by
  induction anns with
  | nil =>
    obtain ⟨a, ha, _⟩ := hbb
    cases ha
  | cons a rest ih =>
    obtain ⟨b, hb, hbty⟩ := hbb
    have hrest : b ∈ rest → tfNormalizeBoxes get_label get_label_id 0 0 rest =
        .error "ZeroDivisionError" := fun hm => ih ⟨b, hm, hbty⟩
    cases a with
    | bbox x y w h lbl i attrs g => simp [tfNormalizeBoxes, pyDiv]
    | label l i attrs =>
      rcases List.mem_cons.mp hb with rfl | hm
      · simp [AnnObj.isBboxType] at hbty
      · simpa [tfNormalizeBoxes] using hrest hm
    | polygon pts l i g attrs =>
      rcases List.mem_cons.mp hb with rfl | hm
      · simp [AnnObj.isBboxType] at hbty
      · simpa [tfNormalizeBoxes] using hrest hm
    | mask rle l i g attrs =>
      rcases List.mem_cons.mp hb with rfl | hm
      · simp [AnnObj.isBboxType] at hbty
      · simpa [tfNormalizeBoxes] using hrest hm
    | points pts vis l i attrs g =>
      rcases List.mem_cons.mp hb with rfl | hm
      · simp [AnnObj.isBboxType] at hbty
      · simpa [tfNormalizeBoxes] using hrest hm
    | caption t i attrs =>
      rcases List.mem_cons.mp hb with rfl | hm
      · simp [AnnObj.isBboxType] at hbty
      · simpa [tfNormalizeBoxes] using hrest hm

/-- C10: an item with no image gets height and width written as 0; if it
also carries at least one bbox annotation, the bbox normalization divides
by zero and the record construction fails with `ZeroDivisionError`
instead of producing normalized coordinates. -/
theorem make_tf_example_no_image (get_label : Option Nat → String)
    (get_label_id : Option Nat → Nat) (item : TfItem)
    (himg : item.image = none) :
    tfDims item = (0, 0) ∧
    ((∃ a ∈ item.annotations, AnnObj.isBboxType a = true) →
      make_tf_example get_label get_label_id item =
        .error "ZeroDivisionError") := by
  have hdims : tfDims item = (0, 0) := by
    simp [tfDims, himg]
  refine ⟨hdims, ?_⟩
  intro hbb
  simp only [make_tf_example, hdims, Nat.cast_zero]
  rw [tfNormalizeBoxes_zero_div get_label get_label_id item.annotations hbb]

/-- Witness for `make_tf_example_no_image`: an imageless item with one
bbox annotation yields dims `(0, 0)` and `ZeroDivisionError`. -/
theorem make_tf_example_no_image_witness :
    tfDims ⟨"x", none, [AnnObj.bbox 1 1 2 2 (some 0) none [] none]⟩ =
      (0, 0) ∧
    make_tf_example (fun _ => "lbl") (fun _ => 0)
      ⟨"x", none, [AnnObj.bbox 1 1 2 2 (some 0) none [] none]⟩ =
      .error "ZeroDivisionError" := by
  have h := make_tf_example_no_image (fun _ => "lbl") (fun _ => 0)
    ⟨"x", none, [AnnObj.bbox 1 1 2 2 (some 0) none [] none]⟩ rfl
  exact ⟨h.1, h.2 ⟨AnnObj.bbox 1 1 2 2 (some 0) none [] none,
    List.mem_singleton.mpr rfl, rfl⟩⟩
